import Mathlib

/-!
Verification development for the browser audio-recorder repository.

The definitions below are a shallow embedding of the repository's
signal-processing and state-machine core, translated directly from the
TypeScript sources:
  * `src/unnamed/part_007`              — `useAudioRecorder` (countdown variant):
    `startRecording`, `saveToUndoHistory`, `undo`, `cutAudio`, `audioBufferToWav`
  * `src/src/hooks/useFileManager.ts`   — `audioBufferToWav`, `convertToMP3`
  * `src/src/hooks/useAudioPlayer.ts`   — `audioBufferToWav`, `createEnhancementChain`,
    the `audioUrl` load effect and `processAudio`
  * `src/src/hooks/useAudioEnhancement.ts` — `createProcessingChain`
  * `src/src/components/WaveformVisualizer.tsx` — `getRealAudioAmplitude`

JavaScript numbers are modelled as exact rationals (reals where a
non-algebraic operation such as `Math.pow` occurs); typed-array stores are
modelled with explicit truncation and wrap-around.
-/

namespace AudioRecorder

/-- JavaScript `Math.max(-1, Math.min(1, x))`, the clamp used at every WAV
encode call site. -/
def jsClamp1 (x : ℚ) : ℚ := max (-1) (min 1 x)

/-- JavaScript ToInteger conversion (truncation toward zero,
`sign(q) * floor(abs(q))`), applied by `DataView.setInt16` to a fractional
argument before storing. -/
def jsTrunc (q : ℚ) : ℤ := if 0 ≤ q then ⌊q⌋ else -⌊-q⌋

/-- JavaScript `Math.round`: nearest integer, ties rounded toward +∞. -/
def jsRound (q : ℚ) : ℤ := ⌊q + 1/2⌋

/-- Per-sample 16-bit conversion of `audioBufferToWav` in
`src/unnamed/part_007` (lines 469–470): clamp to [-1,1], then
`sample < 0 ? sample * 0x8000 : sample * 0x7FFF`, truncated by
`DataView.setInt16`. -/
def recorderWavSample (x : ℚ) : ℤ :=
  let sample := jsClamp1 x
  if sample < 0 then jsTrunc (sample * 0x8000) else jsTrunc (sample * 0x7FFF)

/-- Per-sample 16-bit conversion of `audioBufferToWav` in
`src/src/hooks/useAudioPlayer.ts` (lines 268–269): clamp to [-1,1], then
`sample < 0 ? sample * 0x8000 : sample * 0x7FFF`. -/
def playerWavSample (x : ℚ) : ℤ :=
  let sample := jsClamp1 x
  if sample < 0 then jsTrunc (sample * 0x8000) else jsTrunc (sample * 0x7FFF)

/-- Per-sample 16-bit conversion of `audioBufferToWav` in
`src/src/hooks/useFileManager.ts` (lines 64–65): clamp to [-1,1], then
`sample * 0x7FFF` for every sample, negative or not. -/
def fileManagerWavSample (x : ℚ) : ℤ :=
  jsTrunc (jsClamp1 x * 0x7FFF)

/-- Per-sample 16-bit conversion of `convertToMP3` in
`src/src/hooks/useFileManager.ts` (line 112):
`Math.max(-32768, Math.min(32767, Math.round(sample * 32767)))` —
note: the input is not clamped to [-1,1] first. -/
def mp3SampleToInt16 (x : ℚ) : ℤ :=
  max (-32768) (min 32767 (jsRound (x * 32767)))

/-- Modelled from the spec for comparison (claim C8): each float sample is
converted via `round(clamp(sample, -1, 1) * 32767)` then clamped again to
[-32768, 32767]. -/
def specMp3SampleToInt16 (x : ℚ) : ℤ :=
  max (-32768) (min 32767 (jsRound (jsClamp1 x * 32767)))

/-- Decoded float audio data as the platform decoder yields it: one sample
list per channel, a declared frame count (`AudioBuffer.length`) and a sample
rate in Hz. -/
structure AudioSampleBuffer where
  sampleRate : ℕ
  length : ℕ
  channels : List (List ℚ)
deriving DecidableEq, Repr

/-- Invariant of a platform `AudioBuffer`: every channel holds exactly
`length` samples. -/
def AudioSampleBuffer.wf (b : AudioSampleBuffer) : Prop :=
  ∀ ch ∈ b.channels, ch.length = b.length

/-- Per-channel copy loops of `cutAudio` (`src/unnamed/part_007`
lines 387–400): `newData[i] = originalData[i]` for `i < startSample`, and
`newData[i - cutLength] = originalData[i]` for `endSample ≤ i <
originalLength`, i.e. `newData[j] = originalData[j + cutLength]` for
`j ≥ startSample`.  Out-of-range reads return the `Float32Array` fill
value 0, matching `List.getD`'s default. -/
def cutChannelData (orig : List ℚ) (startSample cutLength newLength : ℕ) :
    List ℚ :=
  (List.range newLength).map fun j =>
    if j < startSample then orig.getD j 0 else orig.getD (j + cutLength) 0

/-- Buffer-level core of `cutAudio` (`src/unnamed/part_007` lines 366–414):
sample indices via `Math.floor(time * sampleRate)`, new length
`originalLength - (endSample - startSample)`, rejection (`none`) when the
new length is ≤ 0, otherwise a new buffer with the same channel count and
sample rate whose channels are produced by the copy loops. -/
def cutAudioBuffer (b : AudioSampleBuffer) (startTime endTime : ℚ) :
    Option AudioSampleBuffer :=
  let startSample : ℤ := ⌊startTime * (b.sampleRate : ℚ)⌋
  let endSample : ℤ := ⌊endTime * (b.sampleRate : ℚ)⌋
  let cutLength : ℤ := endSample - startSample
  let newLength : ℤ := (b.length : ℤ) - cutLength
  if newLength ≤ 0 then none
  else some
    { sampleRate := b.sampleRate
      length := newLength.toNat
      channels := b.channels.map fun ch =>
        cutChannelData ch startSample.toNat cutLength.toNat newLength.toNat }

/-- Little-endian bytes stored by `DataView.setUint16` (value wraps mod 2^16). -/
def u16le (n : ℕ) : List ℕ := [n % 256, n / 256 % 256]

/-- Little-endian bytes stored by `DataView.setUint32` (value wraps mod 2^32). -/
def u32le (n : ℕ) : List ℕ :=
  [n % 256, n / 256 % 256, n / 2 ^ 16 % 256, n / 2 ^ 24 % 256]

/-- Little-endian bytes stored by `DataView.setInt16`: two's-complement
wrap of the (already truncated) integer value. -/
def i16le (v : ℤ) : List ℕ := u16le (v % 65536).toNat

/-- Bytes of `writeString(0, 'RIFF')`: char codes of `R`, `I`, `F`, `F`. -/
def riffTag : List ℕ := [82, 73, 70, 70]

/-- Bytes of `writeString(8, 'WAVE')`: char codes of `W`, `A`, `V`, `E`. -/
def waveTag : List ℕ := [87, 65, 86, 69]

/-- Bytes of `writeString(12, 'fmt ')`: char codes of `f`, `m`, `t`, space. -/
def fmtTag : List ℕ := [102, 109, 116, 32]

/-- Bytes of `writeString(36, 'data')`: char codes of `d`, `a`, `t`, `a`. -/
def dataTag : List ℕ := [100, 97, 116, 97]

/-- The 44-byte RIFF/WAVE header written at offsets 0–43 by every
`audioBufferToWav` in the repository, in write order: `RIFF`,
`bufferSize - 8`, `WAVE`, `fmt `, 16, PCM format 1, channel count, sample
rate, byte rate, block align, 16 bits per sample, `data`, data size. -/
def wavHeader (numberOfChannels sampleRate dataSize : ℕ) : List ℕ :=
  riffTag ++ u32le (44 + dataSize - 8) ++ waveTag ++ fmtTag ++
    u32le 16 ++ u16le 1 ++ u16le numberOfChannels ++ u32le sampleRate ++
    u32le (sampleRate * (numberOfChannels * 2)) ++
    u16le (numberOfChannels * 2) ++ u16le 16 ++ dataTag ++ u32le dataSize

/-- Interleaved 16-bit PCM data section: frame-major loop over sample
index, channel-minor loop over channels, each sample written through the
given per-sample conversion. -/
def wavData (toInt16 : ℚ → ℤ) (b : AudioSampleBuffer) : List ℕ :=
  (List.range b.length).flatMap fun i =>
    b.channels.flatMap fun ch => i16le (toInt16 (ch.getD i 0))

/-- `audioBufferToWav` of `src/src/hooks/useFileManager.ts` (lines 25–71)
as a byte list: 44-byte header followed by the interleaved PCM data. -/
def fileManagerAudioBufferToWav (b : AudioSampleBuffer) : List ℕ :=
  wavHeader b.channels.length b.sampleRate (b.length * (b.channels.length * 2)) ++
    wavData fileManagerWavSample b

/-- `audioBufferToWav` of `src/unnamed/part_007` (lines 430–476) as a byte
list; identical layout, but with the asymmetric per-sample scaling. This is
the encoder `cutAudio` uses to build the new blob. -/
def recorderAudioBufferToWav (b : AudioSampleBuffer) : List ℕ :=
  wavHeader b.channels.length b.sampleRate (b.length * (b.channels.length * 2)) ++
    wavData recorderWavSample b

/-- Read one byte of an encoded file (out of range reads 0). -/
def readByte (bs : List ℕ) (k : ℕ) : ℕ := bs.getD k 0

/-- Decode a little-endian 16-bit field at offset `k`. -/
def readU16LE (bs : List ℕ) (k : ℕ) : ℕ :=
  readByte bs k + 2 ^ 8 * readByte bs (k + 1)

/-- Decode a little-endian 32-bit field at offset `k`. -/
def readU32LE (bs : List ℕ) (k : ℕ) : ℕ :=
  readByte bs k + 2 ^ 8 * readByte bs (k + 1) +
    2 ^ 16 * readByte bs (k + 2) + 2 ^ 24 * readByte bs (k + 3)

/-- Filter types assigned to `BiquadFilterNode.type` by the chain builders. -/
inductive BiquadFilterType
  | highpass
  | lowpass
  | peaking
  | lowshelf
  | highshelf
deriving DecidableEq, Repr

/-- One audio-graph node as configured by the chain builders: the source,
a biquad filter (with exactly the parameters the code sets via
`setValueAtTime`; `none` = parameter left at its default), a dynamics
compressor, or a gain node. -/
inductive AudioNodeDesc
  | source
  | biquadFilter (ftype : BiquadFilterType) (frequency : ℚ) (q : Option ℚ)
      (gain : Option ℚ)
  | dynamicsCompressor (threshold knee ratio attack release : ℚ)
  | gainNode (gain : ℚ)
deriving DecidableEq, Repr

/-- The `volumeLevel` enum `'low' | 'standard' | 'high'`. -/
inductive VolumeLevel
  | low
  | standard
  | high
deriving DecidableEq, Repr

/-- `getVolumeMultiplier` (useAudioPlayer.ts lines 42–49 and
useAudioEnhancement.ts lines 35–42, identical): low → 1.5,
standard → 3.0, high → 4.5. -/
def getVolumeMultiplier : VolumeLevel → ℚ
  | .low => 1.5
  | .standard => 3.0
  | .high => 4.5

/-- `createEnhancementChain` (useAudioPlayer.ts lines 127–226): the node
list `chain`, in push order, starting from the source; the code then
connects `chain[i] → chain[i+1]` serially with no other edges. -/
def createEnhancementChain (volumeLevel : VolumeLevel) : List AudioNodeDesc :=
  [ .source,
    .biquadFilter .highpass 85 (some 0.7) none,
    .biquadFilter .lowpass 8000 (some 0.7) none,
    .biquadFilter .peaking 6500 (some 2) (some (-2)),
    .dynamicsCompressor (-18) 8 6 0.003 0.1,
    .biquadFilter .peaking 800 (some 1) (some 2),
    .biquadFilter .peaking 2800 (some 1.2) (some 5),
    .biquadFilter .peaking 4500 (some 1.5) (some 3),
    .biquadFilter .lowshelf 300 none (some 2.5),
    .biquadFilter .highshelf 6000 none (some 2.5),
    .dynamicsCompressor (-32) 6 3 0.01 0.2,
    .gainNode (getVolumeMultiplier volumeLevel),
    .dynamicsCompressor (-0.5) 0 20 0.001 0.03 ]

/-- `createProcessingChain` (useAudioEnhancement.ts lines 44–143): node
list in push order; the code is identical to `createEnhancementChain`
in useAudioPlayer.ts, including the serial connect loop. -/
def createProcessingChain (volumeLevel : VolumeLevel) : List AudioNodeDesc :=
  [ .source,
    .biquadFilter .highpass 85 (some 0.7) none,
    .biquadFilter .lowpass 8000 (some 0.7) none,
    .biquadFilter .peaking 6500 (some 2) (some (-2)),
    .dynamicsCompressor (-18) 8 6 0.003 0.1,
    .biquadFilter .peaking 800 (some 1) (some 2),
    .biquadFilter .peaking 2800 (some 1.2) (some 5),
    .biquadFilter .peaking 4500 (some 1.5) (some 3),
    .biquadFilter .lowshelf 300 none (some 2.5),
    .biquadFilter .highshelf 6000 none (some 2.5),
    .dynamicsCompressor (-32) 6 3 0.01 0.2,
    .gainNode (getVolumeMultiplier volumeLevel),
    .dynamicsCompressor (-0.5) 0 20 0.001 0.03 ]

/-- The serial connect loop both builders run after pushing the nodes
(`for i in 0 .. chain.length - 2: chain[i].connect(chain[i+1])`): the edge
list of the resulting graph, by node position. -/
def serialConnections (chain : List AudioNodeDesc) : List (ℕ × ℕ) :=
  (List.range (chain.length - 1)).map fun i => (i, i + 1)

/-- Recording states of `src/unnamed/part_007` (line 3). -/
inductive RecState
  | idle
  | countdown
  | recording
  | paused
  | stopped
deriving DecidableEq, Repr

/-- Outcome of one `startRecording()` call: the state the machine is left
in, whether an error escaped to the caller (the entire body is wrapped in
`try { … } catch { console.error(…) }`, so none ever does), and how many
`getUserMedia` acquisitions were attempted. -/
structure StartRecordingResult where
  state : RecState
  errorSurfaced : Bool
  deviceAcquisitions : ℕ
deriving DecidableEq, Repr

/-- `startRecording` (`src/unnamed/part_007` lines 94–235) as a transition:
from `paused` it resumes the existing `MediaRecorder` (or logs and returns
if the recorder is not paused) without touching the device; otherwise it
first runs `startCountdown()` when the state is `idle` (which sets the
state to `countdown` before any device access), then awaits
`getUserMedia`: on success the state becomes `recording`, on failure the
`catch` only logs, leaving whatever state was last set. -/
def startRecordingStep (s : RecState) (mediaRecorderPaused deviceOk : Bool) :
    StartRecordingResult :=
  if s = .paused then
    if mediaRecorderPaused then ⟨.recording, false, 0⟩
    else ⟨.paused, false, 0⟩
  else
    let afterCountdown := if s = .idle then RecState.countdown else s
    if deviceOk then ⟨.recording, false, 1⟩
    else ⟨afterCountdown, false, 1⟩

/-- One entry of the `undoHistory` array (`src/unnamed/part_007`
lines 37–40): the saved blob (as bytes) and its duration. -/
structure UndoEntry where
  blob : List ℕ
  duration : ℚ
deriving DecidableEq, Repr

/-- The editor-visible state of `useAudioRecorder` in
`src/unnamed/part_007`: current `audioBlob` (`none` = null), `duration`,
`currentTime` and the `undoHistory` array. -/
structure EditorState where
  audioBlob : Option (List ℕ)
  duration : ℚ
  currentTime : ℚ
  undoHistory : List UndoEntry
deriving DecidableEq, Repr

/-- `saveToUndoHistory` (`src/unnamed/part_007` lines 308–321): no-op when
there is no blob; otherwise the new history is the current recording
consed onto `prev.slice(0, 2)` (at most the two most recent old entries,
so at most 3 in total). -/
def saveToUndoHistory (s : EditorState) : List UndoEntry :=
  match s.audioBlob with
  | none => s.undoHistory
  | some b => ⟨b, s.duration⟩ :: s.undoHistory.take 2

/-- `canUndo` (`src/unnamed/part_007` line 488): `undoHistory.length > 0`. -/
def canUndo (s : EditorState) : Bool := decide (0 < s.undoHistory.length)

/-- `undo` (`src/unnamed/part_007` lines 324–347): no-op on an empty
history; otherwise restores the most recent entry's blob and duration as
the current recording, resets `currentTime` to 0 and drops the entry. -/
def undoStep (s : EditorState) : EditorState :=
  match s.undoHistory with
  | [] => s
  | previous :: remaining =>
      { audioBlob := some previous.blob
        duration := previous.duration
        currentTime := 0
        undoHistory := remaining }

/-- `cutAudio` (`src/unnamed/part_007` lines 349–427) at the state level,
with the platform decode step abstracted as the `decoded` argument: returns
immediately when there is no blob; otherwise pushes the current recording
onto the undo history (line 356, *before* any validity check), then runs
the buffer-level cut: on rejection only the push remains, on success the
new WAV blob (built by the file's own `audioBufferToWav`), the new duration
`newLength / sampleRate`, and a clamped `currentTime` are installed. -/
def cutAudioModel (s : EditorState) (decoded : AudioSampleBuffer)
    (startTime endTime : ℚ) : EditorState :=
  match s.audioBlob with
  | none => s
  | some _ =>
    let history1 := saveToUndoHistory s
    match cutAudioBuffer decoded startTime endTime with
    | none => { s with undoHistory := history1 }
    | some nb =>
      let newDuration : ℚ := (nb.length : ℚ) / (nb.sampleRate : ℚ)
      { audioBlob := some (recorderAudioBufferToWav nb)
        duration := newDuration
        currentTime := if s.currentTime > newDuration then newDuration
          else s.currentTime
        undoHistory := history1 }

/-- State of the `useAudioPlayer` `audioUrl` load effect: the url the
effect last saw, the urls with a `processAudio` promise still in flight,
and the source url whose (processed) audio element is currently installed
in `audioRef`. -/
structure PlayerLoadState where
  currentUrl : Option ℕ
  pendingLoads : List ℕ
  loadedSrc : Option ℕ
deriving DecidableEq, Repr

/-- Events of the load effect: the effect re-runs with a new `audioUrl`,
or one in-flight `processAudio` promise resolves. -/
inductive LoadEvent
  | newUrl (u : ℕ)
  | processingDone (u : ℕ)
deriving DecidableEq, Repr

/-- The `audioUrl` load effect (useAudioPlayer.ts lines 316–462) with
auto-enhance on and a cache miss, as an event step. `newUrl u`: the effect
records the url and starts `processAudio(u)` (lines 367–369).
`processingDone u`: the `.then` callback (lines 369–388) builds the audio
element from the processed result and installs it in `audioRef.current`
unconditionally — the callback performs no check that `u` is still the
current url. -/
def loadStep (s : PlayerLoadState) : LoadEvent → PlayerLoadState
  | .newUrl u =>
      { currentUrl := some u
        pendingLoads := s.pendingLoads ++ [u]
        loadedSrc := s.loadedSrc }
  | .processingDone u =>
      if u ∈ s.pendingLoads then
        { currentUrl := s.currentUrl
          pendingLoads := s.pendingLoads.erase u
          loadedSrc := some u }
      else s

/-- Run the load effect over a sequence of events. -/
def loadRun (s : PlayerLoadState) (evs : List LoadEvent) : PlayerLoadState :=
  evs.foldl loadStep s

/-- Mount state of the player: no url, nothing in flight, nothing loaded. -/
def initialLoadState : PlayerLoadState := ⟨none, [], none⟩

/-- RMS of the analyser's byte time-domain data
(`WaveformVisualizer.tsx` lines 237–255): each byte maps to
`(byte - 128) / 128`, squares are summed, divided by the buffer length,
then square-rooted. -/
noncomputable def rmsOfBytes (timeData : List ℕ) : ℝ :=
  Real.sqrt (((timeData.map fun (b : ℕ) => (((b : ℝ) - 128) / 128) ^ 2).sum) /
    (timeData.length : ℝ))

/-- Core of `getRealAudioAmplitude` (`WaveformVisualizer.tsx`
lines 227–274), given the bytes `getByteTimeDomainData` filled in:
if no byte differs from 128 the function returns 0.05; otherwise
`responsive = (rms * 4) ** 0.6`, capped at 0.85 by `Math.min`, floored by
`Math.max(scaled, hasValidData ? 0.08 : 0.05)`. -/
noncomputable def getRealAudioAmplitude (timeData : List ℕ) : ℝ :=
  let hasValidData := timeData.any fun b => b != 128
  if hasValidData = false then 0.05
  else
    max (min ((rmsOfBytes timeData * 4) ^ (0.6 : ℝ)) 0.85)
      (if hasValidData then 0.08 else 0.05)

-- ===== Theorems =====

/-- Extraction of the numeric header fields back out of the serialized
header bytes, for any trailing data. -/
theorem wavHeader_fields (C sr ds : ℕ) (rest : List ℕ)
    (h1 : 36 + ds < 2 ^ 32) (h2 : sr < 2 ^ 32)
    (h3 : sr * (C * 2) < 2 ^ 32) (h4 : C * 2 < 2 ^ 16) :
    readU32LE (wavHeader C sr ds ++ rest) 4 = 36 + ds ∧
    readU16LE (wavHeader C sr ds ++ rest) 22 = C ∧
    readU32LE (wavHeader C sr ds ++ rest) 24 = sr ∧
    readU32LE (wavHeader C sr ds ++ rest) 28 = sr * (C * 2) ∧
    readU16LE (wavHeader C sr ds ++ rest) 32 = C * 2 ∧
    readU32LE (wavHeader C sr ds ++ rest) 40 = ds ∧
    (wavHeader C sr ds).length = 44 := by
  simp only [wavHeader, riffTag, waveTag, fmtTag, dataTag, u32le, u16le,
    readU32LE, readU16LE, readByte, List.cons_append, List.nil_append,
    List.getD_cons_zero, List.getD_cons_succ, List.length_cons, List.length_nil]
  norm_num
  omega

/-- The PCM data section holds `BlockAlign = numberOfChannels * 2` bytes
per frame, for `length` frames, whatever the samples are. -/
theorem wavData_length (toInt16 : ℚ → ℤ) (b : AudioSampleBuffer) :
    (wavData toInt16 b).length = b.length * (b.channels.length * 2) := by
  have repl : ∀ (l : List (List ℚ)) (g : List ℚ → List ℕ)
      (c : ℕ), (∀ ch, (g ch).length = c) →
      (l.flatMap g).length = l.length * c := by
    intro l g c hg
    rw [List.length_flatMap]
    have : l.map (List.length ∘ g) = List.replicate l.length c := by
      refine List.eq_replicate_iff.mpr ⟨by simp, ?_⟩
      intro x hx
      simp only [List.mem_map] at hx
      obtain ⟨ch, _, rfl⟩ := hx
      exact hg ch
    rw [this, List.sum_replicate, smul_eq_mul]
  unfold wavData
  rw [List.length_flatMap]
  have hinner : ∀ i : ℕ,
      ((b.channels.flatMap fun ch => i16le (toInt16 (ch.getD i 0)))).length =
      b.channels.length * 2 := fun i =>
    repl b.channels _ 2 (fun ch => rfl)
  have : (List.range b.length).map
      (List.length ∘ fun i => b.channels.flatMap fun ch =>
        i16le (toInt16 (ch.getD i 0))) =
      List.replicate b.length (b.channels.length * 2) := by
    refine List.eq_replicate_iff.mpr ⟨by simp, ?_⟩
    intro x hx
    simp only [List.mem_map] at hx
    obtain ⟨i, _, rfl⟩ := hx
    exact hinner i
  rw [this, List.sum_replicate, smul_eq_mul]


/-- C2, counterexample: the claim says every WAV encode call site scales
asymmetrically, but the `useFileManager.ts` encoder scales the clamped
sample by `0x7FFF` even when negative: at sample −1 it emits −32767 where
the asymmetric sites emit −32768. -/
theorem C2_fileManager_symmetric_counterexample :
    fileManagerWavSample (-1) = -32767 ∧ recorderWavSample (-1) = -32768 ∧
    fileManagerWavSample (-1) ≠ recorderWavSample (-1) := by
  refine ⟨?_, ?_, ?_⟩ <;>
    norm_num [fileManagerWavSample, recorderWavSample, jsClamp1, jsTrunc]

/-- C2 (amended): every WAV encode call site first clamps the float sample
to [-1, 1]; the `part_007` and `useAudioPlayer.ts` encoders then scale
asymmetrically (`* 0x8000` for negative samples, `* 0x7FFF` otherwise) and
agree everywhere, while the `useFileManager.ts` encoder scales every
sample by `0x7FFF`; it agrees with the asymmetric sites on nonnegative
samples but not on negative ones (e.g. at −1). -/
theorem C2_wav_sample_scaling (x : ℚ) :
    recorderWavSample x = playerWavSample x ∧
    (0 ≤ x → fileManagerWavSample x = recorderWavSample x) ∧
    fileManagerWavSample (-1) ≠ recorderWavSample (-1) := by
  refine ⟨rfl, ?_, ?_⟩
  · intro hx
    have h0 : 0 ≤ jsClamp1 x := by
      unfold jsClamp1
      exact le_trans (le_min (by norm_num) hx) (le_max_right _ _)
    unfold recorderWavSample fileManagerWavSample
    rw [if_neg (not_lt.mpr h0)]
  · norm_num [fileManagerWavSample, recorderWavSample, jsClamp1, jsTrunc]

/-- Witness for `C2_wav_sample_scaling` at x = 1/2. -/
theorem C2_wav_sample_scaling_witness :
    (0 : ℚ) ≤ 1 / 2 ∧ fileManagerWavSample (1 / 2) = recorderWavSample (1 / 2) :=
  ⟨by norm_num, (C2_wav_sample_scaling (1 / 2)).2.1 (by norm_num)⟩

/-- C8, counterexample: the conversion in `convertToMP3` does not clamp its
input to [-1, 1] before scaling; at input −2 it emits −32768 while the
claimed composition `clamp(round(clamp(x,-1,1) * 32767))` emits −32767. -/
theorem C8_no_inner_clamp_counterexample :
    mp3SampleToInt16 (-2) = -32768 ∧ specMp3SampleToInt16 (-2) = -32767 ∧
    mp3SampleToInt16 (-2) ≠ specMp3SampleToInt16 (-2) := by
  refine ⟨?_, ?_, ?_⟩ <;>
    norm_num [mp3SampleToInt16, specMp3SampleToInt16, jsClamp1, jsRound]

/-- C8 (amended): the emitted 16-bit integer is
`clamp(round(x * 32767), -32768, 32767)`, with no inner clamp of x to
[-1, 1]; for every input x ≥ −1 (including x > 1) this coincides with the
claimed composition `clamp(round(clamp(x, -1, 1) * 32767), -32768, 32767)`,
but for x < −1 the two can differ (see the counterexample at −2). -/
theorem C8_mp3_sample_conversion (x : ℚ) (hx : -1 ≤ x) :
    mp3SampleToInt16 x = specMp3SampleToInt16 x := by
  rcases le_or_lt x 1 with h1 | h1
  · have hc : jsClamp1 x = x := by
      unfold jsClamp1
      rw [min_eq_right h1, max_eq_right hx]
    unfold specMp3SampleToInt16
    rw [hc]
    rfl
  · have hc : jsClamp1 x = 1 := by
      unfold jsClamp1
      rw [min_eq_left (le_of_lt h1)]
      exact max_eq_right (by norm_num)
    have hbig : (32767 : ℤ) ≤ jsRound (x * 32767) := by
      unfold jsRound
      refine Int.le_floor.mpr ?_
      push_cast
      nlinarith
    have hone : jsRound ((1 : ℚ) * 32767) = 32767 := by
      norm_num [jsRound]
    unfold mp3SampleToInt16 specMp3SampleToInt16
    rw [hc, hone, min_eq_left hbig, min_self]

/-- Witness for `C8_mp3_sample_conversion` at x = 2 (an out-of-range
input, where both forms emit 32767). -/
theorem C8_mp3_sample_conversion_witness :
    (-1 : ℚ) ≤ 2 ∧ mp3SampleToInt16 2 = specMp3SampleToInt16 2 :=
  ⟨by norm_num, C8_mp3_sample_conversion 2 (by norm_num)⟩

/-- C6: for every volume level both chain builders produce exactly the
fixed node sequence — highpass 85 Hz Q 0.7; lowpass 8000 Hz Q 0.7; peaking
6500 Hz Q 2 gain −2 dB; compressor (−18, 8, 6, 3 ms, 100 ms); peaking
800 Hz Q 1 +2 dB; peaking 2800 Hz Q 1.2 +5 dB; peaking 4500 Hz Q 1.5
+3 dB; low-shelf 300 Hz +2.5 dB; high-shelf 6000 Hz +2.5 dB; noise-gate
compressor (−32, 6, 3, 10 ms, 200 ms); makeup gain 1.5 / 3.0 / 4.5 for
low / standard / high; limiter (−0.5, 0, 20, 1 ms, 30 ms) — and the
connect loop wires each node only to the next (a linear chain). -/
theorem C6_enhancement_chain (v : VolumeLevel) :
    createEnhancementChain v =
      [ .source,
        .biquadFilter .highpass 85 (some 0.7) none,
        .biquadFilter .lowpass 8000 (some 0.7) none,
        .biquadFilter .peaking 6500 (some 2) (some (-2)),
        .dynamicsCompressor (-18) 8 6 0.003 0.1,
        .biquadFilter .peaking 800 (some 1) (some 2),
        .biquadFilter .peaking 2800 (some 1.2) (some 5),
        .biquadFilter .peaking 4500 (some 1.5) (some 3),
        .biquadFilter .lowshelf 300 none (some 2.5),
        .biquadFilter .highshelf 6000 none (some 2.5),
        .dynamicsCompressor (-32) 6 3 0.01 0.2,
        .gainNode (match v with
          | .low => 1.5
          | .standard => 3.0
          | .high => 4.5),
        .dynamicsCompressor (-0.5) 0 20 0.001 0.03 ] ∧
    createProcessingChain v = createEnhancementChain v ∧
    serialConnections (createEnhancementChain v) =
      [(0, 1), (1, 2), (2, 3), (3, 4), (4, 5), (5, 6), (6, 7), (7, 8),
        (8, 9), (9, 10), (10, 11), (11, 12)] := by
  cases v <;> exact ⟨rfl, rfl, rfl⟩

/-- C7, counterexample: starting from `idle`, `startCountdown()` sets the
state to `countdown` before the device is acquired; when `getUserMedia`
then fails, the `catch` only logs, so the machine is left in `countdown` —
not its prior state `idle` — and no error reaches the caller. -/
theorem C7_stuck_in_countdown_counterexample :
    startRecordingStep .idle false false = ⟨.countdown, false, 1⟩ ∧
    RecState.countdown ≠ RecState.idle ∧
    (startRecordingStep .idle false false).errorSurfaced = false := by
  exact ⟨rfl, by decide, rfl⟩

/-- C7 (amended): when device acquisition fails during `startRecording`
(any state but `paused`, which never touches the device), the transition
is aborted with exactly one acquisition attempt and no retry, but the
machine is left in `countdown` when it started from `idle` (otherwise in
its prior state), and the error is caught and logged rather than surfaced
to the caller. -/
theorem C7_device_failure (s : RecState) (mr : Bool) (h : s ≠ .paused) :
    (startRecordingStep s mr false).state =
      (if s = .idle then .countdown else s) ∧
    (startRecordingStep s mr false).errorSurfaced = false ∧
    (startRecordingStep s mr false).deviceAcquisitions = 1 := by
  cases s <;> simp_all [startRecordingStep]

/-- Witness for `C7_device_failure` from the `stopped` state. -/
theorem C7_device_failure_witness :
    RecState.stopped ≠ RecState.paused ∧
    ((startRecordingStep .stopped false false).state =
        (if RecState.stopped = RecState.idle then RecState.countdown
          else RecState.stopped) ∧
      (startRecordingStep .stopped false false).errorSurfaced = false ∧
      (startRecordingStep .stopped false false).deviceAcquisitions = 1) :=
  ⟨by decide, C7_device_failure .stopped false (by decide)⟩

/-- C10: evaluation of the load effect on the interleaving
url₁-set, url₂-set, url₂'s enhancement resolves, url₁'s enhancement
resolves. The `.then` callback installs whichever result arrives last, so
the loaded element corresponds to the superseded url 1 while the current
url is 2 — the stale result is applied, contradicting the claim. -/
theorem C10_stale_result_applied :
    loadRun initialLoadState
      [.newUrl 1, .newUrl 2, .processingDone 2, .processingDone 1] =
      ⟨some 2, [], some 1⟩ ∧
    ((some 1 : Option ℕ) ≠ some 2) := by
  exact ⟨rfl, by decide⟩

/-- C4, counterexample: a full-range cut (times 0 to duration on a
two-sample buffer) is rejected, and blob and duration are indeed left
untouched — but the rejected call does modify state: the pre-cut recording
has been pushed onto the undo history. -/
theorem C4_rejected_cut_pushes_history_counterexample :
    cutAudioModel ⟨some [7], 2, 0, []⟩ ⟨1, 2, [[0, 0]]⟩ 0 2 ≠
      (⟨some [7], 2, 0, []⟩ : EditorState) ∧
    (cutAudioModel ⟨some [7], 2, 0, []⟩ ⟨1, 2, [[0, 0]]⟩ 0 2).undoHistory =
      [⟨[7], 2⟩] := by
  have hbuf : cutAudioBuffer ⟨1, 2, [[0, 0]]⟩ 0 2 = none := by
    norm_num [cutAudioBuffer]
  have h2 : (cutAudioModel ⟨some [7], 2, 0, []⟩ ⟨1, 2, [[0, 0]]⟩ 0 2).undoHistory =
      [⟨[7], 2⟩] := by
    simp [cutAudioModel, hbuf, saveToUndoHistory]
  refine ⟨fun hEq => ?_, h2⟩
  rw [hEq] at h2
  simp at h2

/-- C4 (amended): a cut whose removal would leave no samples
(`newLength ≤ 0`) is rejected before the recording is touched — the
buffer-level cut yields no new buffer and blob, duration and current time
are all unchanged — but the undo history of the rejected call is the
result of `saveToUndoHistory` (the push precedes the validity check), not
the original history. -/
theorem C4_rejected_cut (s : EditorState) (decoded : AudioSampleBuffer)
    (p q : ℚ)
    (hle : (decoded.length : ℤ) -
      (⌊q * (decoded.sampleRate : ℚ)⌋ - ⌊p * (decoded.sampleRate : ℚ)⌋) ≤ 0) :
    cutAudioBuffer decoded p q = none ∧
    (cutAudioModel s decoded p q).audioBlob = s.audioBlob ∧
    (cutAudioModel s decoded p q).duration = s.duration ∧
    (cutAudioModel s decoded p q).currentTime = s.currentTime ∧
    (cutAudioModel s decoded p q).undoHistory = saveToUndoHistory s := by
  have hrej : cutAudioBuffer decoded p q = none := by
    unfold cutAudioBuffer
    exact if_pos hle
  refine ⟨hrej, ?_⟩
  unfold cutAudioModel
  cases hb : s.audioBlob with
  | none => simp [saveToUndoHistory, hb]
  | some b => simp [hrej]

/-- Witness for `C4_rejected_cut`: full-range cut on a concrete
two-sample recording. -/
theorem C4_rejected_cut_witness :
    (((⟨1, 2, [[0, 0]]⟩ : AudioSampleBuffer).length : ℤ) -
      (⌊(2 : ℚ) * ((⟨1, 2, [[0, 0]]⟩ : AudioSampleBuffer).sampleRate : ℚ)⌋ -
        ⌊(0 : ℚ) * ((⟨1, 2, [[0, 0]]⟩ : AudioSampleBuffer).sampleRate : ℚ)⌋) ≤ 0) ∧
    (cutAudioBuffer ⟨1, 2, [[0, 0]]⟩ 0 2 = none ∧
      (cutAudioModel ⟨some [7], 2, 0, []⟩ ⟨1, 2, [[0, 0]]⟩ 0 2).audioBlob =
        (⟨some [7], 2, 0, []⟩ : EditorState).audioBlob ∧
      (cutAudioModel ⟨some [7], 2, 0, []⟩ ⟨1, 2, [[0, 0]]⟩ 0 2).duration =
        (⟨some [7], 2, 0, []⟩ : EditorState).duration ∧
      (cutAudioModel ⟨some [7], 2, 0, []⟩ ⟨1, 2, [[0, 0]]⟩ 0 2).currentTime =
        (⟨some [7], 2, 0, []⟩ : EditorState).currentTime ∧
      (cutAudioModel ⟨some [7], 2, 0, []⟩ ⟨1, 2, [[0, 0]]⟩ 0 2).undoHistory =
        saveToUndoHistory ⟨some [7], 2, 0, []⟩) :=
  ⟨by norm_num, C4_rejected_cut ⟨some [7], 2, 0, []⟩ ⟨1, 2, [[0, 0]]⟩ 0 2
    (by norm_num)⟩

/-- C3: the undo history is bounded by 3 and most-recent-first. Any push of
a present recording yields at most 3 entries; and starting from a
recording with empty history, four successful cuts leave exactly 3
entries, after which `undo()` restores, in order, the exact blob and
duration produced by the third, second and first cut; `canUndo` stays true
until the third undo, after which it is false and a further `undo()` is a
no-op. -/
theorem C3_undo_stack (b0 : List ℕ) (d0 ct0 : ℚ)
    (B1 B2 B3 B4 nb1 nb2 nb3 nb4 : AudioSampleBuffer)
    (p1 q1 p2 q2 p3 q3 p4 q4 : ℚ)
    (h1 : cutAudioBuffer B1 p1 q1 = some nb1)
    (h2 : cutAudioBuffer B2 p2 q2 = some nb2)
    (h3 : cutAudioBuffer B3 p3 q3 = some nb3)
    (h4 : cutAudioBuffer B4 p4 q4 = some nb4) :
    (∀ (s : EditorState) (b : List ℕ), s.audioBlob = some b →
      (saveToUndoHistory s).length ≤ 3) ∧
    (let s0 : EditorState := ⟨some b0, d0, ct0, []⟩
     let s1 := cutAudioModel s0 B1 p1 q1
     let s2 := cutAudioModel s1 B2 p2 q2
     let s3 := cutAudioModel s2 B3 p3 q3
     let s4 := cutAudioModel s3 B4 p4 q4
     let u1 := undoStep s4
     let u2 := undoStep u1
     let u3 := undoStep u2
     s4.undoHistory.length = 3 ∧
     canUndo s4 = true ∧
     u1.audioBlob = some (recorderAudioBufferToWav nb3) ∧
     u1.duration = (nb3.length : ℚ) / (nb3.sampleRate : ℚ) ∧
     canUndo u1 = true ∧
     u2.audioBlob = some (recorderAudioBufferToWav nb2) ∧
     u2.duration = (nb2.length : ℚ) / (nb2.sampleRate : ℚ) ∧
     canUndo u2 = true ∧
     u3.audioBlob = some (recorderAudioBufferToWav nb1) ∧
     u3.duration = (nb1.length : ℚ) / (nb1.sampleRate : ℚ) ∧
     canUndo u3 = false ∧
     undoStep u3 = u3) := by
  constructor
  · intro s b hb
    unfold saveToUndoHistory
    rw [hb]
    simp only [List.length_cons, List.length_take]
    omega
  · simp only [cutAudioModel, saveToUndoHistory, undoStep, canUndo,
      h1, h2, h3, h4, List.take]
    norm_num

/-- Witness for `C3_undo_stack`: four successful one-sample cuts on
concrete two-sample buffers. -/
theorem C3_undo_stack_witness :
    (cutAudioBuffer ⟨1, 2, [[0, 0]]⟩ 0 1 = some ⟨1, 1, [[0]]⟩) ∧
    ((⟨some [7], 2, 0, []⟩ : EditorState).audioBlob = some [7] ∧
      (saveToUndoHistory ⟨some [7], 2, 0, []⟩).length ≤ 3) ∧
    (let s0 : EditorState := ⟨some [7], 2, 0, []⟩
     let s1 := cutAudioModel s0 ⟨1, 2, [[0, 0]]⟩ 0 1
     let s2 := cutAudioModel s1 ⟨1, 2, [[0, 0]]⟩ 0 1
     let s3 := cutAudioModel s2 ⟨1, 2, [[0, 0]]⟩ 0 1
     let s4 := cutAudioModel s3 ⟨1, 2, [[0, 0]]⟩ 0 1
     let u1 := undoStep s4
     let u2 := undoStep u1
     let u3 := undoStep u2
     s4.undoHistory.length = 3 ∧
     canUndo s4 = true ∧
     u1.audioBlob = some (recorderAudioBufferToWav ⟨1, 1, [[0]]⟩) ∧
     u1.duration = (((⟨1, 1, [[0]]⟩ : AudioSampleBuffer).length : ℚ) /
       ((⟨1, 1, [[0]]⟩ : AudioSampleBuffer).sampleRate : ℚ)) ∧
     canUndo u1 = true ∧
     u2.audioBlob = some (recorderAudioBufferToWav ⟨1, 1, [[0]]⟩) ∧
     u2.duration = (((⟨1, 1, [[0]]⟩ : AudioSampleBuffer).length : ℚ) /
       ((⟨1, 1, [[0]]⟩ : AudioSampleBuffer).sampleRate : ℚ)) ∧
     canUndo u2 = true ∧
     u3.audioBlob = some (recorderAudioBufferToWav ⟨1, 1, [[0]]⟩) ∧
     u3.duration = (((⟨1, 1, [[0]]⟩ : AudioSampleBuffer).length : ℚ) /
       ((⟨1, 1, [[0]]⟩ : AudioSampleBuffer).sampleRate : ℚ)) ∧
     canUndo u3 = false ∧
     undoStep u3 = u3) := by
  have hc : cutAudioBuffer ⟨1, 2, [[0, 0]]⟩ 0 1 = some ⟨1, 1, [[0]]⟩ := by
    norm_num [cutAudioBuffer, cutChannelData, List.range_succ]
  exact ⟨hc,
    ⟨rfl, (C3_undo_stack [7] 2 0 _ _ _ _ _ _ _ _ 0 1 0 1 0 1 0 1
      hc hc hc hc).1 ⟨some [7], 2, 0, []⟩ [7] rfl⟩,
    (C3_undo_stack [7] 2 0 _ _ _ _ _ _ _ _ 0 1 0 1 0 1 0 1
      hc hc hc hc).2⟩

/-- C5: the WAV encoder of `useFileManager.ts` emits a 44-byte header
followed by the PCM data, whose decoded fields satisfy
`ByteRate = sampleRate * numberOfChannels * 2`,
`BlockAlign = numberOfChannels * 2`, `DataSize = length * BlockAlign`,
RIFF size field `= 36 + DataSize`, and whose total size is
`44 + DataSize` (hypotheses: the fields fit their 16/32-bit slots). -/
theorem C5_wav_header (b : AudioSampleBuffer)
    (h1 : 36 + b.length * (b.channels.length * 2) < 2 ^ 32)
    (h2 : b.sampleRate < 2 ^ 32)
    (h3 : b.sampleRate * (b.channels.length * 2) < 2 ^ 32)
    (h4 : b.channels.length * 2 < 2 ^ 16) :
    (fileManagerAudioBufferToWav b).length =
      44 + b.length * (b.channels.length * 2) ∧
    readU32LE (fileManagerAudioBufferToWav b) 28 =
      b.sampleRate * b.channels.length * 2 ∧
    readU16LE (fileManagerAudioBufferToWav b) 32 = b.channels.length * 2 ∧
    readU32LE (fileManagerAudioBufferToWav b) 40 =
      b.length * b.channels.length * 2 ∧
    readU32LE (fileManagerAudioBufferToWav b) 4 =
      36 + b.length * b.channels.length * 2 := by
  have hf := wavHeader_fields b.channels.length b.sampleRate
    (b.length * (b.channels.length * 2)) (wavData fileManagerWavSample b)
    h1 h2 h3 h4
  unfold fileManagerAudioBufferToWav
  refine ⟨?_, ?_, hf.2.2.2.2.1, ?_, ?_⟩
  · rw [List.length_append, hf.2.2.2.2.2.2, wavData_length]
  · rw [hf.2.2.2.1, mul_assoc]
  · rw [hf.2.2.2.2.2.1, mul_assoc]
  · rw [hf.1, mul_assoc]

/-- Witness for `C5_wav_header`: the 2-channel, 44100 Hz, 100-frame buffer
of the claim; ByteRate 176400, BlockAlign 4, DataSize 400, RIFF size 436,
total 444 bytes. -/
theorem C5_wav_header_witness :
    (fileManagerAudioBufferToWav
        ⟨44100, 100, [List.replicate 100 0, List.replicate 100 0]⟩).length =
      444 ∧
    readU32LE (fileManagerAudioBufferToWav
      ⟨44100, 100, [List.replicate 100 0, List.replicate 100 0]⟩) 28 = 176400 ∧
    readU16LE (fileManagerAudioBufferToWav
      ⟨44100, 100, [List.replicate 100 0, List.replicate 100 0]⟩) 32 = 4 ∧
    readU32LE (fileManagerAudioBufferToWav
      ⟨44100, 100, [List.replicate 100 0, List.replicate 100 0]⟩) 40 = 400 ∧
    readU32LE (fileManagerAudioBufferToWav
      ⟨44100, 100, [List.replicate 100 0, List.replicate 100 0]⟩) 4 = 436 := by
  have h := C5_wav_header
    ⟨44100, 100, [List.replicate 100 0, List.replicate 100 0]⟩
    (by norm_num) (by norm_num) (by norm_num) (by norm_num)
  simpa using h

/-- Equivalence of the two `cutAudio` copy loops with take-and-drop
concatenation on a well-formed channel. -/
theorem cutChannelData_eq (ch : List ℚ) (ss es L : ℕ) (hch : ch.length = L)
    (h1 : ss ≤ es) (h2 : es ≤ L) :
    cutChannelData ch ss (es - ss) (L - (es - ss)) =
      ch.take ss ++ ch.drop es := by
  subst hch
  apply List.ext_getElem
  · simp [cutChannelData]
    omega
  · intro i hi1 hi2
    have hiL : i < ch.length - (es - ss) := by
      simpa [cutChannelData] using hi1
    simp only [cutChannelData, List.getElem_map, List.getElem_range]
    by_cases hlt : i < ss
    · rw [if_pos hlt,
        List.getElem_append_left (by simp; omega),
        List.getElem_take,
        List.getD_eq_getElem ch 0 (show i < ch.length by omega)]
    · rw [if_neg hlt,
        List.getElem_append_right (by simp; omega),
        List.getD_eq_getElem ch 0 (show i + (es - ss) < ch.length by omega)]
      simp only [List.getElem_drop]
      congr 1
      simp
      omega

/-- C1, counterexample: the claim quantifies over all
`0 ≤ startTime < endTime ≤ duration`, but for the full-range cut of a
2-sample, 1 Hz buffer (duration 2 s) — which satisfies those bounds —
`cutAudio` produces no buffer at all: `newLength = 0` is rejected. -/
theorem C1_full_range_counterexample :
    ((0 : ℚ) ≤ 0 ∧ (0 : ℚ) < 2 ∧
      (2 : ℚ) ≤ (((⟨1, 2, [[0, 0]]⟩ : AudioSampleBuffer).length : ℚ) /
        ((⟨1, 2, [[0, 0]]⟩ : AudioSampleBuffer).sampleRate : ℚ))) ∧
    cutAudioBuffer ⟨1, 2, [[0, 0]]⟩ 0 2 = none := by
  constructor
  · norm_num
  · norm_num [cutAudioBuffer]

/-- C1 (amended): under the claim's time bounds and the extra requirement
that the removal leaves at least one sample
(`endSample − startSample < originalLength`, without which the cut is the
rejected case of C4), `cutAudio` yields a buffer with the same sample rate,
length `originalLength − (endSample − startSample)`, and per-channel data
the verbatim concatenation of samples `[0, startSample)` and
`[endSample, originalLength)`; the recorded duration after the cut is
`newLength / sampleRate`. -/
theorem C1_cutAudio (b : AudioSampleBuffer) (p q : ℚ) (hwf : b.wf)
    (hsr : 0 < b.sampleRate) (hp : 0 ≤ p) (hpq : p < q)
    (hq : q ≤ (b.length : ℚ) / (b.sampleRate : ℚ))
    (hrem : ⌊q * (b.sampleRate : ℚ)⌋ - ⌊p * (b.sampleRate : ℚ)⌋ <
      (b.length : ℤ)) :
    cutAudioBuffer b p q = some
      { sampleRate := b.sampleRate
        length := b.length - ((⌊q * (b.sampleRate : ℚ)⌋).toNat -
          (⌊p * (b.sampleRate : ℚ)⌋).toNat)
        channels := b.channels.map fun ch =>
          ch.take (⌊p * (b.sampleRate : ℚ)⌋).toNat ++
            ch.drop (⌊q * (b.sampleRate : ℚ)⌋).toNat } ∧
    (∀ s : EditorState, s.audioBlob ≠ none →
      (cutAudioModel s b p q).duration =
        ((b.length - ((⌊q * (b.sampleRate : ℚ)⌋).toNat -
          (⌊p * (b.sampleRate : ℚ)⌋).toNat) : ℕ) : ℚ) /
          (b.sampleRate : ℚ)) := by
  have hsrQ : (0 : ℚ) < (b.sampleRate : ℚ) := by exact_mod_cast hsr
  have h0 : 0 ≤ ⌊p * (b.sampleRate : ℚ)⌋ :=
    Int.floor_nonneg.mpr (mul_nonneg hp hsrQ.le)
  have hmono : ⌊p * (b.sampleRate : ℚ)⌋ ≤ ⌊q * (b.sampleRate : ℚ)⌋ :=
    Int.floor_le_floor (mul_le_mul_of_nonneg_right hpq.le hsrQ.le)
  have hqL : q * (b.sampleRate : ℚ) ≤ (b.length : ℚ) :=
    (le_div_iff₀ hsrQ).mp hq
  have hesL : ⌊q * (b.sampleRate : ℚ)⌋ ≤ (b.length : ℤ) := by
    have h := Int.floor_le_floor hqL
    simpa using h
  have hmain : cutAudioBuffer b p q = some
      { sampleRate := b.sampleRate
        length := b.length - ((⌊q * (b.sampleRate : ℚ)⌋).toNat -
          (⌊p * (b.sampleRate : ℚ)⌋).toNat)
        channels := b.channels.map fun ch =>
          ch.take (⌊p * (b.sampleRate : ℚ)⌋).toNat ++
            ch.drop (⌊q * (b.sampleRate : ℚ)⌋).toNat } := by
    unfold cutAudioBuffer
    rw [if_neg (by omega)]
    simp only [Option.some.injEq, AudioSampleBuffer.mk.injEq]
    refine ⟨trivial, by omega, ?_⟩
    apply List.map_congr_left
    intro ch hch
    have hcut : (⌊q * (b.sampleRate : ℚ)⌋ - ⌊p * (b.sampleRate : ℚ)⌋).toNat =
        (⌊q * (b.sampleRate : ℚ)⌋).toNat - (⌊p * (b.sampleRate : ℚ)⌋).toNat := by
      omega
    have hnew : ((b.length : ℤ) - (⌊q * (b.sampleRate : ℚ)⌋ -
        ⌊p * (b.sampleRate : ℚ)⌋)).toNat =
        b.length - ((⌊q * (b.sampleRate : ℚ)⌋).toNat -
          (⌊p * (b.sampleRate : ℚ)⌋).toNat) := by
      omega
    rw [hcut, hnew]
    exact cutChannelData_eq ch _ _ b.length (hwf ch hch) (by omega) (by omega)
  refine ⟨hmain, ?_⟩
  intro s hs
  unfold cutAudioModel
  cases hb : s.audioBlob with
  | none => exact absurd hb hs
  | some b' => simp [hmain]

/-- Witness for `C1_cutAudio`: cutting [2 s, 3 s) out of a 5-second
(10-sample, 2 Hz) ramp removes samples 4 and 5; the result is the verbatim
concatenation of samples 0–3 and 6–9, i.e. every sample at new-time
t ≥ 2 s equals the original sample at t + 1 s. -/
theorem C1_cutAudio_witness :
    ((⟨2, 10, [[0, 1, 2, 3, 4, 5, 6, 7, 8, 9]]⟩ : AudioSampleBuffer).wf ∧
      0 < 2 ∧ (0 : ℚ) ≤ 2 ∧ (2 : ℚ) < 3 ∧
      (3 : ℚ) ≤ (((⟨2, 10, [[0, 1, 2, 3, 4, 5, 6, 7, 8, 9]]⟩ :
        AudioSampleBuffer).length : ℚ) /
        ((⟨2, 10, [[0, 1, 2, 3, 4, 5, 6, 7, 8, 9]]⟩ :
          AudioSampleBuffer).sampleRate : ℚ)) ∧
      ⌊(3 : ℚ) * ((⟨2, 10, [[0, 1, 2, 3, 4, 5, 6, 7, 8, 9]]⟩ :
        AudioSampleBuffer).sampleRate : ℚ)⌋ -
        ⌊(2 : ℚ) * ((⟨2, 10, [[0, 1, 2, 3, 4, 5, 6, 7, 8, 9]]⟩ :
          AudioSampleBuffer).sampleRate : ℚ)⌋ <
        ((⟨2, 10, [[0, 1, 2, 3, 4, 5, 6, 7, 8, 9]]⟩ :
          AudioSampleBuffer).length : ℤ)) ∧
    cutAudioBuffer ⟨2, 10, [[0, 1, 2, 3, 4, 5, 6, 7, 8, 9]]⟩ 2 3 =
      some ⟨2, 8, [[0, 1, 2, 3, 6, 7, 8, 9]]⟩ := by
  have hwf : (⟨2, 10, [[0, 1, 2, 3, 4, 5, 6, 7, 8, 9]]⟩ :
      AudioSampleBuffer).wf := by
    intro ch hch
    simp only [List.mem_singleton] at hch
    subst hch
    rfl
  have h := (C1_cutAudio ⟨2, 10, [[0, 1, 2, 3, 4, 5, 6, 7, 8, 9]]⟩ 2 3 hwf
    (by norm_num) (by norm_num) (by norm_num) (by norm_num)
    (by norm_num)).1
  refine ⟨⟨hwf, by norm_num, by norm_num, by norm_num, by norm_num,
    by norm_num⟩, ?_⟩
  rw [h]
  norm_num
  exact ⟨rfl, rfl⟩

/-- An all-silent analyser buffer (every byte 128) has RMS zero. -/
theorem silent_rms_zero (t : List ℕ)
    (h : t.any (fun b => b != 128) = false) : rmsOfBytes t = 0 := by
  have hall : ∀ b ∈ t, b = 128 := by
    intro b hb
    have := List.any_eq_false.mp h b hb
    simpa using this
  have hsum : (t.map fun (b : ℕ) => (((b : ℝ) - 128) / 128) ^ 2).sum = 0 := by
    apply List.sum_eq_zero
    intro x hx
    simp only [List.mem_map] at hx
    obtain ⟨b, hb, rfl⟩ := hx
    rw [hall b hb]
    norm_num
  unfold rmsOfBytes
  rw [hsum]
  simp

/-- A buffer with any non-silent byte has strictly positive RMS. -/
theorem nonsilent_rms_pos (t : List ℕ)
    (h : t.any (fun b => b != 128) = true) : 0 < rmsOfBytes t := by
  obtain ⟨b, hb, hne⟩ := List.any_eq_true.mp h
  have hbne : b ≠ 128 := by simpa using hne
  have hterm : 0 < (((b : ℝ) - 128) / 128) ^ 2 := by
    have hb0 : ((b : ℝ) - 128) / 128 ≠ 0 := by
      have hbr : (b : ℝ) ≠ 128 := by exact_mod_cast hbne
      intro hc
      apply hbr
      field_simp at hc
      linarith
    positivity
  have hnonneg : ∀ x ∈ t.map fun (b : ℕ) => (((b : ℝ) - 128) / 128) ^ 2,
      0 ≤ x := by
    intro x hx
    simp only [List.mem_map] at hx
    obtain ⟨c, _, rfl⟩ := hx
    positivity
  have hmem : (((b : ℝ) - 128) / 128) ^ 2 ∈
      t.map fun (b : ℕ) => (((b : ℝ) - 128) / 128) ^ 2 :=
    List.mem_map_of_mem _ hb
  have hS : 0 < (t.map fun (b : ℕ) => (((b : ℝ) - 128) / 128) ^ 2).sum :=
    lt_of_lt_of_le hterm (List.single_le_sum hnonneg _ hmem)
  have hn : 0 < (t.length : ℝ) := by
    have : 0 < t.length := List.length_pos.mpr (by rintro rfl; simp at hb)
    exact_mod_cast this
  unfold rmsOfBytes
  exact Real.sqrt_pos.mpr (by positivity)

/-- C9: the waveform amplitude equals 0.05 exactly for RMS 0 (the
all-silent buffer); for a buffer with any non-silent sample it equals
`(rms * 4) ^ 0.6` capped at 0.85 and floored at 0.08; and whenever the
scaled value reaches the cap the amplitude is exactly 0.85. -/
theorem C9_amplitude (t : List ℕ) :
    (getRealAudioAmplitude t = 0.05 ↔ rmsOfBytes t = 0) ∧
    (t.any (fun b => b != 128) = true →
      getRealAudioAmplitude t =
        max (min ((rmsOfBytes t * 4) ^ (0.6 : ℝ)) 0.85) 0.08) ∧
    (t.any (fun b => b != 128) = true →
      0.85 ≤ (rmsOfBytes t * 4) ^ (0.6 : ℝ) →
      getRealAudioAmplitude t = 0.85) := by
  have hform : t.any (fun b => b != 128) = true →
      getRealAudioAmplitude t =
        max (min ((rmsOfBytes t * 4) ^ (0.6 : ℝ)) 0.85) 0.08 := by
    intro h
    simp only [getRealAudioAmplitude, h]
    norm_num
  refine ⟨⟨?_, ?_⟩, hform, ?_⟩
  · intro hA
    by_cases h : t.any (fun b => b != 128) = true
    · exfalso
      rw [hform h] at hA
      have hle : (0.08 : ℝ) ≤
          max (min ((rmsOfBytes t * 4) ^ (0.6 : ℝ)) 0.85) 0.08 :=
        le_max_right _ _
      rw [hA] at hle
      norm_num at hle
    · have h' : t.any (fun b => b != 128) = false := by simpa using h
      exact silent_rms_zero t h'
  · intro hrms
    have h' : t.any (fun b => b != 128) = false := by
      by_contra hc
      have h'' : t.any (fun b => b != 128) = true := by simpa using hc
      exact absurd hrms (ne_of_gt (nonsilent_rms_pos t h''))
    simp only [getRealAudioAmplitude, h']
    norm_num
  · intro h hge
    rw [hform h, min_eq_right hge, max_eq_left (by norm_num)]

/-- Witness for `C9_amplitude`: the byte buffer [0] (full-scale sample,
RMS 1) hits the 0.85 cap exactly; the all-silent buffer [128] has RMS 0
and amplitude exactly 0.05. -/
theorem C9_amplitude_witness :
    ((List.any [0] fun b => b != 128) = true ∧
      (0.85 : ℝ) ≤ (rmsOfBytes [0] * 4) ^ (0.6 : ℝ)) ∧
    getRealAudioAmplitude [0] = 0.85 ∧
    (rmsOfBytes [128] = 0 ∧ getRealAudioAmplitude [128] = 0.05) := by
  have hrms0 : rmsOfBytes [0] = 1 := by
    unfold rmsOfBytes
    norm_num
  have hcap : (0.85 : ℝ) ≤ (rmsOfBytes [0] * 4) ^ (0.6 : ℝ) := by
    rw [hrms0, one_mul]
    calc (0.85 : ℝ) ≤ 1 := by norm_num
      _ = (4 : ℝ) ^ (0 : ℝ) := (Real.rpow_zero 4).symm
      _ ≤ (4 : ℝ) ^ (0.6 : ℝ) :=
        Real.rpow_le_rpow_of_exponent_le (by norm_num) (by norm_num)
  have hany : (List.any [0] fun b => b != 128) = true := rfl
  have hrms128 : rmsOfBytes [128] = 0 := by
    unfold rmsOfBytes
    norm_num
  refine ⟨⟨hany, hcap⟩, (C9_amplitude [0]).2.2 hany hcap, hrms128,
    (C9_amplitude [128]).1.mpr hrms128⟩

end AudioRecorder
